import Mathlib

/-!
Verification of the Anti-Phishing governance core: a shallow embedding of the
`ProposalVoting` and `BlacklistRegistry` Solidity contracts and of the backend
blockchain event indexer, together with theorems about the proposal lifecycle,
the voting rules, the blacklist operations and the indexer's mirror database.

Modelling conventions:
* Ethereum addresses are `Nat` (`0` is the zero address).
* `uint256` is `Nat`: Solidity 0.8 reverts on overflow instead of wrapping, and
  all arithmetic here (vote tallies bounded by the number of addresses,
  timestamps) stays far below `2 ^ 256`, so `Nat` arithmetic is exact.
* A Solidity `mapping` is an association list; absence of a key models the
  zero/default value (for `BlacklistEntry`, absence models `exists == false`).
* Every mutating entry point returns `Except`: `.error` models `revert`, which
  rolls back the whole transaction, so the pre-state is kept unchanged.
-/

set_option autoImplicit false

abbrev Address := Nat

/-- Lookup in an association list, mirroring a keyed read. -/
def lookupA {κ α : Type} [DecidableEq κ] (k : κ) : List (κ × α) → Option α
  | [] => none
  | (k0, v0) :: rest => if k0 = k then some v0 else lookupA k rest

/-- Insert-or-replace by key, mirroring a Solidity mapping write and a MongoDB
upsert (`findOneAndUpdate` with `upsert: true`). -/
def upsertA {κ α : Type} [DecidableEq κ] (k : κ) (v : α) : List (κ × α) → List (κ × α)
  | [] => [(k, v)]
  | (k0, v0) :: rest => if k0 = k then (k0, v) :: rest else (k0, v0) :: upsertA k v rest

/-- Update-if-present by key, mirroring `findOneAndUpdate` without `upsert`. -/
def updateA {κ α : Type} [DecidableEq κ] (k : κ) (f : α → α) : List (κ × α) → List (κ × α)
  | [] => []
  | (k0, v0) :: rest => if k0 = k then (k0, f v0) :: rest else (k0, v0) :: updateA k f rest

/-- Revert semantics of an Ethereum transaction: a failed call leaves the
pre-state untouched. -/
def txStep {ε σ : Type} (r : Except ε σ) (s : σ) : σ :=
  match r with
  | .ok s' => s'
  | .error _ => s

deriving instance DecidableEq for Except

/-! ## BlacklistRegistry (BlacklistRegistry.sol) -/

/-- Entry kind, `enum EntryType { URL, Address }`. -/
inductive EntryType
  | URL
  | Address
deriving DecidableEq

/-- `struct BlacklistEntry`; the `exists` flag is modelled by presence of the
key in the association list. -/
structure BlacklistEntry where
  entryType : EntryType
  timestamp : Nat
  proposer : Address
deriving DecidableEq

/-- Failure causes of `BlacklistRegistry` calls, one per `require`. -/
inductive RegistryError
  | notProposalVotingContract
  | urlEmpty
  | urlAlreadyBlacklisted
  | addressZero
  | addressAlreadyBlacklisted
  | proposerZero
  | removerZero
  | urlNotBlacklisted
  | addressNotBlacklisted
deriving DecidableEq

/-- Storage of the `BlacklistRegistry` contract. -/
structure RegistryState where
  blacklistedURLs : List (String × BlacklistEntry)
  blacklistedAddresses : List (Address × BlacklistEntry)
  proposalVotingContract : Address
  owner : Address
deriving DecidableEq

/-- `isURLBlacklisted`: whether a URL has an entry with `exists == true`. -/
def RegistryState.isURLBlacklisted (r : RegistryState) (url : String) : Bool :=
  (lookupA url r.blacklistedURLs).isSome

/-- `isAddressBlacklisted`. -/
def RegistryState.isAddressBlacklisted (r : RegistryState) (a : Address) : Bool :=
  (lookupA a r.blacklistedAddresses).isSome

/-- `addURL(_url, _proposer)` called by `sender` at time `now`; checks mirror
the modifier and the `require` statements in source order. -/
def RegistryState.addURL (r : RegistryState) (sender : Address) (now : Nat)
    (url : String) (proposer : Address) : Except RegistryError RegistryState :=
  if sender ≠ r.proposalVotingContract then .error .notProposalVotingContract
  else if url = "" then .error .urlEmpty
  else if r.isURLBlacklisted url then .error .urlAlreadyBlacklisted
  else if proposer = 0 then .error .proposerZero
  else .ok
    { r with
      blacklistedURLs := upsertA url
        { entryType := .URL, timestamp := now, proposer := proposer }
        r.blacklistedURLs }

/-- `addAddress(_address, _proposer)`. -/
def RegistryState.addAddress (r : RegistryState) (sender : Address) (now : Nat)
    (a : Address) (proposer : Address) : Except RegistryError RegistryState :=
  if sender ≠ r.proposalVotingContract then .error .notProposalVotingContract
  else if a = 0 then .error .addressZero
  else if r.isAddressBlacklisted a then .error .addressAlreadyBlacklisted
  else if proposer = 0 then .error .proposerZero
  else .ok
    { r with
      blacklistedAddresses := upsertA a
        { entryType := .Address, timestamp := now, proposer := proposer }
        r.blacklistedAddresses }

/-- Key deletion, mirroring Solidity `delete mapping[key]`. -/
def removeA {κ α : Type} [DecidableEq κ] (k : κ) : List (κ × α) → List (κ × α)
  | [] => []
  | (k0, v0) :: rest => if k0 = k then rest else (k0, v0) :: removeA k rest

/-- `removeURL(_url, _remover)`. -/
def RegistryState.removeURL (r : RegistryState) (sender : Address) (_now : Nat)
    (url : String) (remover : Address) : Except RegistryError RegistryState :=
  if sender ≠ r.proposalVotingContract then .error .notProposalVotingContract
  else if url = "" then .error .urlEmpty
  else if ¬ r.isURLBlacklisted url then .error .urlNotBlacklisted
  else if remover = 0 then .error .removerZero
  else .ok { r with blacklistedURLs := removeA url r.blacklistedURLs }

/-- `removeAddress(_address, _remover)`. -/
def RegistryState.removeAddress (r : RegistryState) (sender : Address) (_now : Nat)
    (a : Address) (remover : Address) : Except RegistryError RegistryState :=
  if sender ≠ r.proposalVotingContract then .error .notProposalVotingContract
  else if a = 0 then .error .addressZero
  else if ¬ r.isAddressBlacklisted a then .error .addressNotBlacklisted
  else if remover = 0 then .error .removerZero
  else .ok { r with blacklistedAddresses := removeA a r.blacklistedAddresses }

/-- `batchCheckURLs`: a plain map over the input list, so it is total (a view
call that never reverts) and preserves input order. -/
def RegistryState.batchCheckURLs (r : RegistryState) (urls : List String) : List Bool :=
  urls.map (fun u => r.isURLBlacklisted u)

/-- `batchCheckAddresses`. -/
def RegistryState.batchCheckAddresses (r : RegistryState) (addrs : List Address) : List Bool :=
  addrs.map (fun a => r.isAddressBlacklisted a)

/-- `BlacklistRegistry` constructor. -/
def mkBlacklistRegistry (proposalVotingContract : Address) (sender : Address) :
    Except RegistryError RegistryState :=
  if proposalVotingContract = 0 then .error .addressZero
  else .ok { blacklistedURLs := [], blacklistedAddresses := [],
             proposalVotingContract := proposalVotingContract, owner := sender }

/-! ## ProposalVoting (ProposalVoting.sol) -/

/-- `enum ProposalType`. -/
inductive ProposalType
  | AddURL
  | AddAddress
  | RemoveURL
  | RemoveAddress
deriving DecidableEq

/-- `enum ProposalStatus`. -/
inductive ProposalStatus
  | Active
  | Approved
  | Rejected
  | Executed
deriving DecidableEq

/-- `struct Proposal`; the nested `mapping(address => bool) hasVoted` is the
list of addresses that voted. -/
structure Proposal where
  id : Nat
  proposalType : ProposalType
  urlValue : String
  addressValue : Address
  description : String
  creationTimestamp : Nat
  votingPeriodEnd : Nat
  proposer : Address
  yesVotes : Nat
  noVotes : Nat
  status : ProposalStatus
  hasVoted : List Address
  totalVoters : Nat
deriving DecidableEq

/-- The default value of `mapping(uint256 => Proposal)` for an absent key:
every field zeroed, enums at their first constructor. -/
def defaultProposal : Proposal :=
  { id := 0, proposalType := .AddURL, urlValue := "", addressValue := 0,
    description := "", creationTimestamp := 0, votingPeriodEnd := 0, proposer := 0,
    yesVotes := 0, noVotes := 0, status := .Active, hasVoted := [], totalVoters := 0 }

/-- Failure causes of `ProposalVoting` calls, one per `require`/`revert`. -/
inductive VotingError
  | zeroRegistryAddress
  | zeroTokenAddress
  | zeroMinVotingPeriod
  | badMajorityPercentage
  | emptyDescription
  | zeroVotingDuration
  | insufficientTokenBalance
  | notOwnerForRemove
  | urlEmptyForURLProposal
  | addressNotZeroForURLProposal
  | addressZeroForAddressProposal
  | urlNotEmptyForAddressProposal
  | proposalDoesNotExist
  | proposalNotActive
  | votingPeriodHasEnded
  | votingPeriodNotEnded
  | alreadyVoted
  | onlyOwner
  | notApproved
  | registryFailure (e : RegistryError)
deriving DecidableEq

/-- Storage of the `ProposalVoting` contract (the two referenced contract
addresses live in `SystemState`). -/
structure VotingState where
  proposals : List (Nat × Proposal)
  nextProposalId : Nat
  minVotingPeriod : Nat
  minVotesForApproval : Nat
  approvalMajorityPercentage : Nat
  minProposerTokenHoldings : Nat
  owner : Address
deriving DecidableEq

/-- Mapping read `proposals[_proposalId]` with Solidity default semantics. -/
def VotingState.getProposal (v : VotingState) (pid : Nat) : Proposal :=
  (lookupA pid v.proposals).getD defaultProposal

/-- `getTotalProposalCount()`: `nextProposalId - 1`. -/
def VotingState.getTotalProposalCount (v : VotingState) : Nat :=
  v.nextProposalId - 1

/-- The approval decision of `endProposalAndExecute` as a pure function of the
tallies and the configured thresholds, exactly as in the source:
`yesVotes >= minVotesForApproval && totalVoters > 0` guards the integer
percentage test `(yesVotes * 100) / totalVoters >= approvalMajorityPercentage`. -/
def meetsApprovalCriteria (yesVotes totalVoters minVotesForApproval
    approvalMajorityPercentage : Nat) : Bool :=
  if minVotesForApproval ≤ yesVotes ∧ 0 < totalVoters then
    decide (approvalMajorityPercentage ≤ yesVotes * 100 / totalVoters)
  else false

/-- `ProposalVoting` constructor: the `require` checks, then
`nextProposalId = 1` and `owner = msg.sender`. -/
def mkProposalVoting (blacklistRegistryAddress governanceTokenAddress : Address)
    (minVotingPeriod minVotesForApproval approvalMajorityPercentage
      minProposerTokenHoldings : Nat) (sender : Address) :
    Except VotingError VotingState :=
  if blacklistRegistryAddress = 0 then .error .zeroRegistryAddress
  else if governanceTokenAddress = 0 then .error .zeroTokenAddress
  else if minVotingPeriod = 0 then .error .zeroMinVotingPeriod
  else if ¬ (0 < approvalMajorityPercentage ∧ approvalMajorityPercentage ≤ 100) then
    .error .badMajorityPercentage
  else .ok { proposals := [], nextProposalId := 1, minVotingPeriod := minVotingPeriod,
             minVotesForApproval := minVotesForApproval,
             approvalMajorityPercentage := approvalMajorityPercentage,
             minProposerTokenHoldings := minProposerTokenHoldings, owner := sender }

/-- The tally update of `vote`: mark the sender as having voted, bump
`totalVoters`, and bump exactly one of `yesVotes`/`noVotes`. -/
def Proposal.castVote (p : Proposal) (sender : Address) (support : Bool) : Proposal :=
  { p with hasVoted := sender :: p.hasVoted,
           totalVoters := p.totalVoters + 1,
           yesVotes := if support then p.yesVotes + 1 else p.yesVotes,
           noVotes := if support then p.noVotes else p.noVotes + 1 }

/-- The storage write performed by a successful `vote`. -/
def ProposalVoting.voteCommit (v : VotingState) (sender : Address) (pid : Nat)
    (support : Bool) : VotingState :=
  { v with
    proposals := upsertA pid
      ((v.getProposal pid).castVote sender support) v.proposals }

/-- `vote(_proposalId, _support)` by `sender` at time `now`. Guard order is the
source order: `proposalExists`, `proposalActive` (status then deadline), then
the `hasVoted` check. -/
def ProposalVoting.vote (v : VotingState) (sender : Address) (now pid : Nat)
    (support : Bool) : Except VotingError VotingState :=
  if ¬ (0 < pid ∧ pid < v.nextProposalId) then .error .proposalDoesNotExist
  else if (v.getProposal pid).status ≠ .Active then .error .proposalNotActive
  else if ¬ now < (v.getProposal pid).votingPeriodEnd then .error .votingPeriodHasEnded
  else if sender ∈ (v.getProposal pid).hasVoted then .error .alreadyVoted
  else .ok (ProposalVoting.voteCommit v sender pid support)

/-- The status decided by `endProposalAndExecute` for the target proposal. -/
def ProposalVoting.resolvedStatus (v : VotingState) (pid : Nat) : ProposalStatus :=
  if meetsApprovalCriteria (v.getProposal pid).yesVotes
      (v.getProposal pid).totalVoters v.minVotesForApproval
      v.approvalMajorityPercentage
  then ProposalStatus.Approved else ProposalStatus.Rejected

/-- The storage write performed by a successful `endProposalAndExecute`. -/
def ProposalVoting.resolveCommit (v : VotingState) (pid : Nat) : VotingState :=
  { v with
    proposals := upsertA pid
      { v.getProposal pid with status := ProposalVoting.resolvedStatus v pid }
      v.proposals }

/-- `endProposalAndExecute(_proposalId)` at time `now`: resolves an Active
proposal whose voting period has ended to Approved or Rejected. -/
def ProposalVoting.endProposalAndExecute (v : VotingState) (now pid : Nat) :
    Except VotingError VotingState :=
  if ¬ (0 < pid ∧ pid < v.nextProposalId) then .error .proposalDoesNotExist
  else if (v.getProposal pid).status ≠ .Active then .error .proposalNotActive
  else if now < (v.getProposal pid).votingPeriodEnd then .error .votingPeriodNotEnded
  else .ok (ProposalVoting.resolveCommit v pid)

/-! ## Combined deployment: ProposalVoting + BlacklistRegistry + token balances -/

/-- The deployed system: the two contracts' storage, the governance-token
balance book read by `balanceOf`, and the chain address at which the
`ProposalVoting` contract itself lives (the `msg.sender` the registry sees on
cross-contract calls). -/
structure SystemState where
  voting : VotingState
  registry : RegistryState
  balances : List (Address × Nat)
  votingContractAddr : Address
deriving DecidableEq

/-- `governanceTokenContract.balanceOf(msg.sender)`. -/
def SystemState.balanceOf (s : SystemState) (a : Address) : Nat :=
  (lookupA a s.balances).getD 0

/-- The record stored by `createProposal` for the fresh ID. -/
def ProposalVoting.newProposal (pid : Nat) (ptype : ProposalType) (url : String)
    (addrValue : Address) (description : String) (now votingEnd : Nat)
    (sender : Address) : Proposal :=
  { id := pid, proposalType := ptype, urlValue := url, addressValue := addrValue,
    description := description, creationTimestamp := now, votingPeriodEnd := votingEnd,
    proposer := sender, yesVotes := 0, noVotes := 0, status := .Active,
    hasVoted := [], totalVoters := 0 }

/-- The effective voting duration of `createProposal`: the caller-requested
duration, raised to `minVotingPeriod` when shorter. -/
def SystemState.actualVotingDuration (s : SystemState) (durationSeconds : Nat) : Nat :=
  if durationSeconds < s.voting.minVotingPeriod then s.voting.minVotingPeriod
  else durationSeconds

/-- The storage write performed by a successful `createProposal`: store the new
record under the fresh ID and bump `nextProposalId`. -/
def SystemState.createCommit (s : SystemState) (sender : Address) (now : Nat)
    (ptype : ProposalType) (url : String) (addrValue : Address)
    (description : String) (durationSeconds : Nat) : SystemState :=
  { s with
    voting :=
      { s.voting with
        proposals := upsertA s.voting.nextProposalId
          (ProposalVoting.newProposal s.voting.nextProposalId ptype url addrValue
            description now (now + s.actualVotingDuration durationSeconds) sender)
          s.voting.proposals,
        nextProposalId := s.voting.nextProposalId + 1 } }

/-- `createProposal(_type, _url, _address, _description,
_userDefinedVotingDurationInSeconds)` by `sender` at time `now`. The checks
appear in source order; the requested duration is raised to `minVotingPeriod`
when shorter; the fresh ID is `nextProposalId`, which is then incremented.
The source's trailing `revert("Invalid proposal type")` branch is unreachable
because the four enum constructors are exhaustive. -/
def SystemState.createProposal (s : SystemState) (sender : Address) (now : Nat)
    (ptype : ProposalType) (url : String) (addrValue : Address)
    (description : String) (durationSeconds : Nat) :
    Except VotingError (Nat × SystemState) :=
  if description = "" then .error .emptyDescription
  else if durationSeconds = 0 then .error .zeroVotingDuration
  else if (ptype = .AddURL ∨ ptype = .AddAddress) ∧
      s.balanceOf sender < s.voting.minProposerTokenHoldings then
    .error .insufficientTokenBalance
  else if (ptype = .RemoveURL ∨ ptype = .RemoveAddress) ∧ sender ≠ s.voting.owner then
    .error .notOwnerForRemove
  else if (ptype = .AddURL ∨ ptype = .RemoveURL) ∧ url = "" then
    .error .urlEmptyForURLProposal
  else if (ptype = .AddURL ∨ ptype = .RemoveURL) ∧ addrValue ≠ 0 then
    .error .addressNotZeroForURLProposal
  else if (ptype = .AddAddress ∨ ptype = .RemoveAddress) ∧ addrValue = 0 then
    .error .addressZeroForAddressProposal
  else if (ptype = .AddAddress ∨ ptype = .RemoveAddress) ∧ url ≠ "" then
    .error .urlNotEmptyForAddressProposal
  else .ok
    (s.voting.nextProposalId,
     SystemState.createCommit s sender now ptype url addrValue description durationSeconds)

/-- System-level `vote`: the contract never reads the token contract or the
registry in `vote`, so only the `voting` component is touched. -/
def SystemState.vote (s : SystemState) (sender : Address) (now pid : Nat)
    (support : Bool) : Except VotingError SystemState :=
  (ProposalVoting.vote s.voting sender now pid support).map
    (fun v => { s with voting := v })

/-- System-level `endProposalAndExecute`: touches only the `voting` component
(no `BlacklistRegistry` interaction in this step). -/
def SystemState.endProposalAndExecute (s : SystemState) (now pid : Nat) :
    Except VotingError SystemState :=
  (ProposalVoting.endProposalAndExecute s.voting now pid).map
    (fun v => { s with voting := v })

/-- The registry call dispatched by `executeApprovedProposal` for a proposal:
the registry sees the `ProposalVoting` contract address as `msg.sender`. -/
def SystemState.execRegistryAction (s : SystemState) (now : Nat) (p : Proposal) :
    Except RegistryError RegistryState :=
  match p.proposalType with
  | .AddURL => s.registry.addURL s.votingContractAddr now p.urlValue p.proposer
  | .AddAddress => s.registry.addAddress s.votingContractAddr now p.addressValue p.proposer
  | .RemoveURL => s.registry.removeURL s.votingContractAddr now p.urlValue p.proposer
  | .RemoveAddress => s.registry.removeAddress s.votingContractAddr now p.addressValue p.proposer

/-- The storage write performed by a successful `executeApprovedProposal`:
adopt the new registry storage and mark the proposal Executed. -/
def SystemState.executeCommit (s : SystemState) (r : RegistryState) (pid : Nat) :
    SystemState :=
  { s with
    registry := r,
    voting :=
      { s.voting with
        proposals := upsertA pid
          { s.voting.getProposal pid with status := .Executed }
          s.voting.proposals } }

/-- `executeApprovedProposal(_proposalId)` by `sender` at time `now`: owner
check, existence check, Approved check, then the registry action; a registry
revert propagates and rolls the whole transaction back, otherwise the status
becomes Executed. -/
def SystemState.executeApprovedProposal (s : SystemState) (sender : Address)
    (now pid : Nat) : Except VotingError SystemState :=
  if sender ≠ s.voting.owner then .error .onlyOwner
  else if ¬ (0 < pid ∧ pid < s.voting.nextProposalId) then .error .proposalDoesNotExist
  else if (s.voting.getProposal pid).status ≠ .Approved then .error .notApproved
  else
    match s.execRegistryAction now (s.voting.getProposal pid) with
    | .error e => .error (.registryFailure e)
    | .ok r => .ok (SystemState.executeCommit s r pid)

/-! ## EventIndexer (blockchainIndexer.js) -/

/-- Key of the mirror's `BlacklistEntry` collection: the event handler uses the
URL string for URL entries and the address for address entries. -/
inductive MirrorKey
  | urlKey (s : String)
  | addrKey (a : Address)
deriving DecidableEq

/-- A document of the `BlacklistEntry` Mongo collection (keyed by `value`). -/
structure MBlacklistEntry where
  entryKind : String
  value : MirrorKey
  proposer : Address
  timestamp : Nat
  isActive : Bool
deriving DecidableEq

/-- A document of the `Proposal` Mongo collection (keyed by `proposalId`). -/
structure MProposal where
  proposalId : Nat
  proposalType : String
  urlValue : String
  addressValue : Address
  description : String
  creationTimestamp : Nat
  votingPeriodEnd : Nat
  proposer : Address
  status : String
  yesVotes : Nat
  noVotes : Nat
  totalVoters : Nat
deriving DecidableEq

/-- A document of the `Vote` Mongo collection (keyed by `(proposalId, voter)`). -/
structure MVote where
  proposalId : Nat
  voter : Address
  support : Bool
  timestamp : Nat
deriving DecidableEq

/-- The indexer's mirror database. -/
structure MirrorDB where
  entries : List (MirrorKey × MBlacklistEntry)
  proposals : List (Nat × MProposal)
  votes : List ((Nat × Address) × MVote)
deriving DecidableEq

/-- The JS `proposalTypeMap` array lookup. -/
def proposalTypeToString : ProposalType → String
  | .AddURL => "AddURL"
  | .AddAddress => "AddAddress"
  | .RemoveURL => "RemoveURL"
  | .RemoveAddress => "RemoveAddress"

/-- The JS `statusMap` array lookup. -/
def statusToString : ProposalStatus → String
  | .Active => "Active"
  | .Approved => "Approved"
  | .Rejected => "Rejected"
  | .Executed => "Executed"

/-- Payload of `EntryAdded(_type, _value, _address, _timestamp, _proposer)`. -/
structure EntryAddedEvent where
  entryType : EntryType
  value : String
  address : Address
  timestamp : Nat
  proposer : Address
deriving DecidableEq

/-- Payload of `EntryRemoved(_type, _value, _address, _timestamp, _remover)`. -/
structure EntryRemovedEvent where
  entryType : EntryType
  value : String
  address : Address
  timestamp : Nat
  remover : Address
deriving DecidableEq

/-- Payload of `ProposalCreated`. -/
structure ProposalCreatedEvent where
  proposalId : Nat
  ptype : ProposalType
  url : String
  address : Address
  description : String
  proposer : Address
  creationTimestamp : Nat
  votingPeriodEnd : Nat
deriving DecidableEq

/-- Payload of `VoteCast`, together with the block timestamp the handler
fetches from the event's block (a fixed function of the event, so redelivery
of the same event sees the same timestamp). -/
structure VoteCastEvent where
  proposalId : Nat
  voter : Address
  support : Bool
  yesVotes : Nat
  noVotes : Nat
  blockTimestamp : Nat
deriving DecidableEq

/-- Payload of `ProposalStatusUpdated`. -/
structure ProposalStatusUpdatedEvent where
  proposalId : Nat
  oldStatus : ProposalStatus
  newStatus : ProposalStatus
deriving DecidableEq

/-- The mirror key the registry-event handlers compute:
`value = entryType === 'URL' ? _value : _address`. -/
def EventIndexer.registryKey (t : EntryType) (value : String) (a : Address) : MirrorKey :=
  if t = .URL then .urlKey value else .addrKey a

/-- `EntryAdded` handler: upsert of the full document keyed by `value`. -/
def EventIndexer.onEntryAdded (db : MirrorDB) (e : EntryAddedEvent) : MirrorDB :=
  { db with
    entries := upsertA (EventIndexer.registryKey e.entryType e.value e.address)
      { entryKind := if e.entryType = .URL then "URL" else "Address",
        value := EventIndexer.registryKey e.entryType e.value e.address,
        proposer := e.proposer, timestamp := e.timestamp, isActive := true }
      db.entries }

/-- `EntryRemoved` handler: update (no upsert) keyed by `value`, setting
`isActive := false` and the timestamp. -/
def EventIndexer.onEntryRemoved (db : MirrorDB) (e : EntryRemovedEvent) : MirrorDB :=
  { db with
    entries := updateA (EventIndexer.registryKey e.entryType e.value e.address)
      (fun b => { b with isActive := false, timestamp := e.timestamp })
      db.entries }

/-- `ProposalCreated` handler: upsert of the full document keyed by
`proposalId`, with status `Active` and zeroed tallies. -/
def EventIndexer.onProposalCreated (db : MirrorDB) (e : ProposalCreatedEvent) : MirrorDB :=
  { db with
    proposals := upsertA e.proposalId
      { proposalId := e.proposalId, proposalType := proposalTypeToString e.ptype,
        urlValue := e.url, addressValue := e.address, description := e.description,
        creationTimestamp := e.creationTimestamp, votingPeriodEnd := e.votingPeriodEnd,
        proposer := e.proposer, status := "Active", yesVotes := 0, noVotes := 0,
        totalVoters := 0 }
      db.proposals }

/-- `VoteCast` handler: upsert of the vote record keyed by
`(proposalId, voter)`, then an update (no upsert) of the proposal's tallies
with `totalVoters` reconstructed as `yesVotes + noVotes`. -/
def EventIndexer.onVoteCast (db : MirrorDB) (e : VoteCastEvent) : MirrorDB :=
  { db with
    votes := upsertA (e.proposalId, e.voter)
      { proposalId := e.proposalId, voter := e.voter, support := e.support,
        timestamp := e.blockTimestamp }
      db.votes,
    proposals := updateA e.proposalId
      (fun p => { p with yesVotes := e.yesVotes, noVotes := e.noVotes,
                         totalVoters := e.yesVotes + e.noVotes })
      db.proposals }

/-- `ProposalStatusUpdated` handler: update (no upsert) of the status string. -/
def EventIndexer.onProposalStatusUpdated (db : MirrorDB)
    (e : ProposalStatusUpdatedEvent) : MirrorDB :=
  { db with
    proposals := updateA e.proposalId
      (fun p => { p with status := statusToString e.newStatus })
      db.proposals }

/-! ## A concrete sample deployment and lifecycle (used to instantiate
universally quantified theorems at concrete inputs) -/

/-- Sample `ProposalVoting` storage as produced by the constructor with
`minVotingPeriod = 3600`, `minVotesForApproval = 1`,
`approvalMajorityPercentage = 51`, `minProposerTokenHoldings = 10`,
deployed by address 7. -/
def sampleVoting : VotingState :=
  { proposals := [], nextProposalId := 1, minVotingPeriod := 3600,
    minVotesForApproval := 1, approvalMajorityPercentage := 51,
    minProposerTokenHoldings := 10, owner := 7 }

/-- Sample `BlacklistRegistry` storage with the `ProposalVoting` contract
deployed at address 99. -/
def sampleRegistry : RegistryState :=
  { blacklistedURLs := [], blacklistedAddresses := [],
    proposalVotingContract := 99, owner := 7 }

/-- Sample initial system: address 5 holds 100 governance tokens. -/
def sampleS0 : SystemState :=
  { voting := sampleVoting, registry := sampleRegistry,
    balances := [(5, 100)], votingContractAddr := 99 }

/-- After address 5 creates an AddURL proposal at time 1000 with a requested
duration of 60 seconds (clamped up to 3600). -/
def sampleS1 : SystemState :=
  SystemState.createCommit sampleS0 5 1000 ProposalType.AddURL ("evil.example") 0
    ("phishing site") 60

/-- After address 11 votes yes on proposal 1 at time 2000. -/
def sampleS2 : SystemState :=
  txStep (sampleS1.vote 11 2000 1 true) sampleS1

/-- After proposal 1 is resolved at time 5000 (1 yes of 1 voter: Approved). -/
def sampleS3 : SystemState :=
  txStep (sampleS2.endProposalAndExecute 5000 1) sampleS2

/-- After the owner (7) executes the approved proposal at time 6000. -/
def sampleS4 : SystemState :=
  txStep (sampleS3.executeApprovedProposal 7 6000 1) sampleS3

/-- A variant of `sampleS3` whose registry already blacklists the proposal's
URL, so execution must fail. -/
def sampleS3clash : SystemState :=
  { sampleS3 with
    registry :=
      { sampleRegistry with
        blacklistedURLs :=
          [(("evil.example"),
            { entryType := EntryType.URL, timestamp := 10, proposer := 3 })] } }

/-- The stored record of proposal 1 after the sample vote. -/
def sampleProposalAfterVote : Proposal :=
  sampleS2.voting.getProposal 1

/-! ## Reachable states under the four lifecycle operations -/

/-- An initial deployment: the `voting` storage is the result of the
`ProposalVoting` constructor and the `registry` storage the result of the
`BlacklistRegistry` constructor; token balances are arbitrary (the token
predates the governance contracts). -/
def SystemState.isInitial (s : SystemState) : Prop :=
  (∃ regAddr tokAddr minVP minVotes pct minHold deployer,
      mkProposalVoting regAddr tokAddr minVP minVotes pct minHold deployer = .ok s.voting) ∧
  (∃ pvAddr deployer, mkBlacklistRegistry pvAddr deployer = .ok s.registry)

/-- The step relation generated by `createProposal`, `vote`,
`endProposalAndExecute` and `executeApprovedProposal` from an initial
deployment (failed calls revert and do not change the state). -/
inductive Reachable : SystemState → Prop
  | init (s : SystemState) : s.isInitial → Reachable s
  | createStep (s : SystemState) (sender : Address) (now : Nat) (ptype : ProposalType)
      (url : String) (addrValue : Address) (description : String)
      (durationSeconds pid : Nat) (s' : SystemState) : Reachable s →
      s.createProposal sender now ptype url addrValue description durationSeconds
        = .ok (pid, s') →
      Reachable s'
  | voteStep (s : SystemState) (sender : Address) (now pid : Nat) (support : Bool)
      (s' : SystemState) : Reachable s →
      s.vote sender now pid support = .ok s' → Reachable s'
  | resolveStep (s : SystemState) (now pid : Nat) (s' : SystemState) : Reachable s →
      s.endProposalAndExecute now pid = .ok s' → Reachable s'
  | executeStep (s : SystemState) (sender : Address) (now pid : Nat) (s' : SystemState) :
      Reachable s → s.executeApprovedProposal sender now pid = .ok s' → Reachable s'

/-- A second sample system differing from `sampleS1` only in token balances
(the voter 11 holds nothing in `sampleS1` and 1000000 tokens here). -/
def sampleS1rich : SystemState :=
  { sampleS1 with balances := [(5, 100), (11, 1000000)] }

/-! ## Theorems -/

theorem lookupA_upsertA_self {κ α : Type} [DecidableEq κ] (k : κ) (v : α)
    (l : List (κ × α)) : lookupA k (upsertA k v l) = some v := by
  induction l with
  | nil => simp [upsertA, lookupA]
  | cons hd tl ih =>
    obtain ⟨k0, v0⟩ := hd
    by_cases hk : k0 = k <;> simp [upsertA, lookupA, hk, ih]

theorem lookupA_upsertA_ne {κ α : Type} [DecidableEq κ] {q k : κ} (v : α)
    (l : List (κ × α)) (h : q ≠ k) : lookupA q (upsertA k v l) = lookupA q l := by
  have hks : k ≠ q := fun hh => h hh.symm
  induction l with
  | nil => simp [upsertA, lookupA, hks]
  | cons hd tl ih =>
    obtain ⟨k0, v0⟩ := hd
    by_cases hk : k0 = k
    · subst hk
      simp [upsertA, lookupA, hks]
    · simp [upsertA, lookupA, hk, ih]

theorem upsertA_idem {κ α : Type} [DecidableEq κ] (k : κ) (v : α)
    (l : List (κ × α)) : upsertA k v (upsertA k v l) = upsertA k v l := by
  induction l with
  | nil => simp [upsertA]
  | cons hd tl ih =>
    obtain ⟨k0, v0⟩ := hd
    by_cases hk : k0 = k <;> simp [upsertA, hk, ih]

theorem lookupA_updateA_self {κ α : Type} [DecidableEq κ] (k : κ) (f : α → α)
    (l : List (κ × α)) : lookupA k (updateA k f l) = (lookupA k l).map f := by
  induction l with
  | nil => simp [updateA, lookupA]
  | cons hd tl ih =>
    obtain ⟨k0, v0⟩ := hd
    by_cases hk : k0 = k <;> simp [updateA, lookupA, hk, ih]

theorem lookupA_updateA_ne {κ α : Type} [DecidableEq κ] {q k : κ} (f : α → α)
    (l : List (κ × α)) (h : q ≠ k) : lookupA q (updateA k f l) = lookupA q l := by
  have hks : k ≠ q := fun hh => h hh.symm
  induction l with
  | nil => simp [updateA]
  | cons hd tl ih =>
    obtain ⟨k0, v0⟩ := hd
    by_cases hk : k0 = k
    · subst hk
      simp [updateA, lookupA, hks]
    · simp [updateA, lookupA, hk, ih]

theorem updateA_idem {κ α : Type} [DecidableEq κ] (k : κ) (f : α → α)
    (l : List (κ × α)) (hf : ∀ a, f (f a) = f a) :
    updateA k f (updateA k f l) = updateA k f l := by
  induction l with
  | nil => simp [updateA]
  | cons hd tl ih =>
    obtain ⟨k0, v0⟩ := hd
    by_cases hk : k0 = k <;> simp [updateA, hk, ih, hf]

theorem lookupA_upsertA_isSome {κ α : Type} [DecidableEq κ] (q k : κ) (v : α)
    (l : List (κ × α)) :
    (lookupA q (upsertA k v l)).isSome = true ↔ q = k ∨ (lookupA q l).isSome = true := by
  by_cases h : q = k
  · subst h
    simp [lookupA_upsertA_self]
  · simp [lookupA_upsertA_ne v l h, h]

theorem lookupA_updateA_isSome {κ α : Type} [DecidableEq κ] (q k : κ) (f : α → α)
    (l : List (κ × α)) :
    (lookupA q (updateA k f l)).isSome = (lookupA q l).isSome := by
  by_cases h : q = k
  · subst h
    rw [lookupA_updateA_self]
    cases lookupA q l <;> simp
  · simp [lookupA_updateA_ne f l h]

theorem txStep_error {ε σ : Type} {r : Except ε σ} {s : σ} {e : ε}
    (h : r = .error e) : txStep r s = s := by
  subst h
  rfl

/-! ## Characterizations of successful transitions -/

theorem VotingState.getProposal_upsertA_self (v : VotingState) (pid : Nat) (p : Proposal)
    (w : VotingState) (hw : w.proposals = upsertA pid p v.proposals) :
    w.getProposal pid = p := by
  simp [VotingState.getProposal, hw, lookupA_upsertA_self]

theorem VotingState.getProposal_upsertA_ne (v : VotingState) (pid : Nat) (p : Proposal)
    (w : VotingState) (hw : w.proposals = upsertA pid p v.proposals)
    {q : Nat} (hq : q ≠ pid) : w.getProposal q = v.getProposal q := by
  simp [VotingState.getProposal, hw, lookupA_upsertA_ne p v.proposals hq]

theorem ProposalVoting.vote_ok {v v' : VotingState} {sender : Address} {now pid : Nat}
    {support : Bool}
    (h : ProposalVoting.vote v sender now pid support = .ok v') :
    (0 < pid ∧ pid < v.nextProposalId) ∧
    (v.getProposal pid).status = .Active ∧
    now < (v.getProposal pid).votingPeriodEnd ∧
    sender ∉ (v.getProposal pid).hasVoted ∧
    v' = ProposalVoting.voteCommit v sender pid support := by
  unfold ProposalVoting.vote at h
  split_ifs at h with h1 h2 h3 h4
  exact ⟨h1, not_not.mp h2, h3, h4, (Except.ok.inj h).symm⟩

theorem ProposalVoting.resolve_ok {v v' : VotingState} {now pid : Nat}
    (h : ProposalVoting.endProposalAndExecute v now pid = .ok v') :
    (0 < pid ∧ pid < v.nextProposalId) ∧
    (v.getProposal pid).status = .Active ∧
    (v.getProposal pid).votingPeriodEnd ≤ now ∧
    v' = ProposalVoting.resolveCommit v pid := by
  unfold ProposalVoting.endProposalAndExecute at h
  split_ifs at h with h1 h2 h3
  exact ⟨h1, not_not.mp h2, Nat.le_of_not_lt h3, (Except.ok.inj h).symm⟩

theorem SystemState.createProposal_ok {s s' : SystemState} {sender : Address} {now : Nat}
    {ptype : ProposalType} {url : String} {addrValue : Address} {description : String}
    {durationSeconds : Nat} {pid : Nat}
    (h : s.createProposal sender now ptype url addrValue description durationSeconds
          = .ok (pid, s')) :
    pid = s.voting.nextProposalId ∧ description ≠ "" ∧ durationSeconds ≠ 0 ∧
    s' = SystemState.createCommit s sender now ptype url addrValue description
          durationSeconds := by
  unfold SystemState.createProposal at h
  split_ifs at h with h1 h2 h3 h4 h5 h6 h7 h8
  have hp := Prod.mk.inj (Except.ok.inj h)
  exact ⟨hp.1.symm, h1, h2, hp.2.symm⟩

theorem SystemState.executeApprovedProposal_ok {s s' : SystemState} {sender : Address}
    {now pid : Nat}
    (h : s.executeApprovedProposal sender now pid = .ok s') :
    sender = s.voting.owner ∧
    (0 < pid ∧ pid < s.voting.nextProposalId) ∧
    (s.voting.getProposal pid).status = .Approved ∧
    ∃ r, s.execRegistryAction now (s.voting.getProposal pid) = .ok r ∧
      s' = SystemState.executeCommit s r pid := by
  unfold SystemState.executeApprovedProposal at h
  split_ifs at h with h1 h2 h3
  cases hr : s.execRegistryAction now (s.voting.getProposal pid) with
  | error e =>
    rw [hr] at h
    exact absurd h (by simp)
  | ok r =>
    rw [hr] at h
    exact ⟨not_not.mp h1, h2, not_not.mp h3, r, rfl, (Except.ok.inj h).symm⟩

theorem mkProposalVoting_ok {a b minVP minV pct mh : Nat} {sender : Address}
    {v : VotingState} (h : mkProposalVoting a b minVP minV pct mh sender = .ok v) :
    v.proposals = [] ∧ v.nextProposalId = 1 := by
  unfold mkProposalVoting at h
  split_ifs at h
  cases Except.ok.inj h
  exact ⟨rfl, rfl⟩

theorem SystemState.vote_system_ok {s s' : SystemState} {sender : Address} {now pid : Nat}
    {support : Bool} (h : s.vote sender now pid support = .ok s') :
    ProposalVoting.vote s.voting sender now pid support
      = .ok (ProposalVoting.voteCommit s.voting sender pid support) ∧
    s' = { s with voting := ProposalVoting.voteCommit s.voting sender pid support } := by
  unfold SystemState.vote at h
  cases hv : ProposalVoting.vote s.voting sender now pid support with
  | error e =>
    rw [hv] at h
    exact absurd h (by simp [Except.map])
  | ok v =>
    rw [hv] at h
    simp only [Except.map, Except.ok.injEq] at h
    have hc := (ProposalVoting.vote_ok hv).2.2.2.2
    subst hc
    exact ⟨rfl, h.symm⟩

theorem SystemState.resolve_system_ok {s s' : SystemState} {now pid : Nat}
    (h : s.endProposalAndExecute now pid = .ok s') :
    ProposalVoting.endProposalAndExecute s.voting now pid
      = .ok (ProposalVoting.resolveCommit s.voting pid) ∧
    s' = { s with voting := ProposalVoting.resolveCommit s.voting pid } := by
  unfold SystemState.endProposalAndExecute at h
  cases hv : ProposalVoting.endProposalAndExecute s.voting now pid with
  | error e =>
    rw [hv] at h
    exact absurd h (by simp [Except.map])
  | ok v =>
    rw [hv] at h
    simp only [Except.map, Except.ok.injEq] at h
    have hc := (ProposalVoting.resolve_ok hv).2.2.2
    subst hc
    exact ⟨rfl, h.symm⟩

/-- Proposal-ID bookkeeping invariant: `nextProposalId` starts at 1 and the
stored keys are exactly `1 .. nextProposalId - 1`. -/
theorem reachable_id_invariant {s : SystemState} (h : Reachable s) :
    1 ≤ s.voting.nextProposalId ∧
    ∀ pid, (lookupA pid s.voting.proposals).isSome = true ↔
      (0 < pid ∧ pid < s.voting.nextProposalId) := by
  induction h with
  | init s hs =>
    obtain ⟨⟨ra, ta, mv, mn, pc, mh, dep, hmk⟩, _⟩ := hs
    obtain ⟨hprops, hnext⟩ := mkProposalVoting_ok hmk
    rw [hprops, hnext]
    refine ⟨le_refl 1, fun pid => ?_⟩
    simp [lookupA]
    omega
  | createStep s sender now ptype url addrValue description durationSeconds pid s' _ hok ih =>
    obtain ⟨hpid, _, _, hcommit⟩ := SystemState.createProposal_ok hok
    subst hcommit
    subst hpid
    refine ⟨by simp [SystemState.createCommit], fun q => ?_⟩
    simp only [SystemState.createCommit]
    rw [lookupA_upsertA_isSome]
    rw [ih.2 q]
    have h1 := ih.1
    omega
  | voteStep s sender now pid support s' _ hok ih =>
    obtain ⟨hv, hs'⟩ := SystemState.vote_system_ok hok
    obtain ⟨hex, _, _, _, _⟩ := ProposalVoting.vote_ok hv
    subst hs'
    refine ⟨ih.1, fun q => ?_⟩
    simp only [ProposalVoting.voteCommit]
    rw [lookupA_upsertA_isSome]
    rw [ih.2 q]
    have hpid := (ih.2 pid).mpr hex
    constructor
    · rintro (rfl | hq)
      · exact hex
      · exact hq
    · exact fun hq => Or.inr hq
  | resolveStep s now pid s' _ hok ih =>
    obtain ⟨hv, hs'⟩ := SystemState.resolve_system_ok hok
    obtain ⟨hex, _, _, _⟩ := ProposalVoting.resolve_ok hv
    subst hs'
    refine ⟨ih.1, fun q => ?_⟩
    simp only [ProposalVoting.resolveCommit]
    rw [lookupA_upsertA_isSome]
    rw [ih.2 q]
    constructor
    · rintro (rfl | hq)
      · exact hex
      · exact hq
    · exact fun hq => Or.inr hq
  | executeStep s sender now pid s' _ hok ih =>
    obtain ⟨_, hex, _, r, _, hs'⟩ := SystemState.executeApprovedProposal_ok hok
    subst hs'
    refine ⟨ih.1, fun q => ?_⟩
    simp only [SystemState.executeCommit]
    rw [lookupA_upsertA_isSome]
    rw [ih.2 q]
    constructor
    · rintro (rfl | hq)
      · exact hex
      · exact hq
    · exact fun hq => Or.inr hq

theorem VotingState.getProposal_tally {v : VotingState}
    (ih : ∀ pid p, lookupA pid v.proposals = some p →
      p.totalVoters = p.yesVotes + p.noVotes) (pid : Nat) :
    (v.getProposal pid).totalVoters
      = (v.getProposal pid).yesVotes + (v.getProposal pid).noVotes := by
  unfold VotingState.getProposal
  cases hl : lookupA pid v.proposals with
  | none => simp [defaultProposal]
  | some p0 => simpa using ih pid p0 hl

/-- Tally invariant: in every reachable state, every stored proposal satisfies
`totalVoters = yesVotes + noVotes`. -/
theorem reachable_tally_invariant {s : SystemState} (h : Reachable s) :
    ∀ pid p, lookupA pid s.voting.proposals = some p →
      p.totalVoters = p.yesVotes + p.noVotes := by
  induction h with
  | init s hs =>
    obtain ⟨⟨ra, ta, mv, mn, pc, mh, dep, hmk⟩, _⟩ := hs
    rw [(mkProposalVoting_ok hmk).1]
    intro pid p hp
    simp [lookupA] at hp
  | createStep s sender now ptype url addrValue description durationSeconds pid s' _ hok ih =>
    obtain ⟨hpid, _, _, hcommit⟩ := SystemState.createProposal_ok hok
    subst hcommit
    intro q p hp
    simp only [SystemState.createCommit] at hp
    by_cases hq : q = s.voting.nextProposalId
    · subst hq
      rw [lookupA_upsertA_self] at hp
      cases Option.some.inj hp
      rfl
    · rw [lookupA_upsertA_ne _ _ hq] at hp
      exact ih q p hp
  | voteStep s sender now pid support s' _ hok ih =>
    obtain ⟨_, hs'⟩ := SystemState.vote_system_ok hok
    subst hs'
    intro q p hp
    simp only [ProposalVoting.voteCommit] at hp
    by_cases hq : q = pid
    · subst hq
      rw [lookupA_upsertA_self] at hp
      cases Option.some.inj hp
      have := VotingState.getProposal_tally ih q
      cases support <;> simp [Proposal.castVote] <;> omega
    · rw [lookupA_upsertA_ne _ _ hq] at hp
      exact ih q p hp
  | resolveStep s now pid s' _ hok ih =>
    obtain ⟨_, hs'⟩ := SystemState.resolve_system_ok hok
    subst hs'
    intro q p hp
    simp only [ProposalVoting.resolveCommit] at hp
    by_cases hq : q = pid
    · subst hq
      rw [lookupA_upsertA_self] at hp
      cases Option.some.inj hp
      simpa using VotingState.getProposal_tally ih q
    · rw [lookupA_upsertA_ne _ _ hq] at hp
      exact ih q p hp
  | executeStep s sender now pid s' _ hok ih =>
    obtain ⟨_, _, _, r, _, hs'⟩ := SystemState.executeApprovedProposal_ok hok
    subst hs'
    intro q p hp
    simp only [SystemState.executeCommit] at hp
    by_cases hq : q = pid
    · subst hq
      rw [lookupA_upsertA_self] at hp
      cases Option.some.inj hp
      simpa using VotingState.getProposal_tally ih q
    · rw [lookupA_upsertA_ne _ _ hq] at hp
      exact ih q p hp

/-! ## Helper lemmas about the decision rule and commits -/

theorem meetsApprovalCriteria_iff (yes tv minV pct : Nat) :
    meetsApprovalCriteria yes tv minV pct = true ↔
      (minV ≤ yes ∧ 0 < tv ∧ pct ≤ yes * 100 / tv) := by
  unfold meetsApprovalCriteria
  split_ifs with hg
  · simp [hg.1, hg.2]
  · simp only [Bool.false_eq_true, false_iff]
    intro hc
    exact hg ⟨hc.1, hc.2.1⟩

theorem VotingState.getProposal_resolveCommit_self (v : VotingState) (pid : Nat) :
    ((ProposalVoting.resolveCommit v pid).getProposal pid).status
      = ProposalVoting.resolvedStatus v pid := by
  have := VotingState.getProposal_upsertA_self v pid
    { v.getProposal pid with status := ProposalVoting.resolvedStatus v pid }
    (ProposalVoting.resolveCommit v pid) rfl
  rw [this]

theorem resolvedStatus_approved_iff (v : VotingState) (pid : Nat) :
    ProposalVoting.resolvedStatus v pid = .Approved ↔
      (v.minVotesForApproval ≤ (v.getProposal pid).yesVotes ∧
       0 < (v.getProposal pid).totalVoters ∧
       v.approvalMajorityPercentage ≤
         (v.getProposal pid).yesVotes * 100 / (v.getProposal pid).totalVoters) := by
  rw [← meetsApprovalCriteria_iff]
  unfold ProposalVoting.resolvedStatus
  split_ifs with hm
  · simp [hm]
  · simp [hm]

theorem SystemState.resolve_succeeds {s : SystemState} {now pid : Nat}
    (hex : 0 < pid ∧ pid < s.voting.nextProposalId)
    (hact : (s.voting.getProposal pid).status = .Active)
    (hend : (s.voting.getProposal pid).votingPeriodEnd ≤ now) :
    s.endProposalAndExecute now pid
      = .ok { s with voting := ProposalVoting.resolveCommit s.voting pid } := by
  unfold SystemState.endProposalAndExecute ProposalVoting.endProposalAndExecute
  rw [if_neg (not_not.mpr hex), if_neg (not_not.mpr hact), if_neg (Nat.not_lt.mpr hend)]
  rfl

/-- C1: for an Active proposal whose voting period has ended,
`endProposalAndExecute` succeeds and sets the status to Approved iff
`yesVotes ≥ minVotesForApproval`, `totalVoters > 0` and
`⌊yesVotes * 100 / totalVoters⌋ ≥ approvalMajorityPercentage`, and to Rejected
otherwise; with zero voters the proposal is Rejected unconditionally, and the
decision is the pure function `meetsApprovalCriteria` of
`(yesVotes, totalVoters, minVotesForApproval, approvalMajorityPercentage)`. -/
theorem C1_resolution_decision (s : SystemState) (now pid : Nat)
    (hex : 0 < pid ∧ pid < s.voting.nextProposalId)
    (hact : (s.voting.getProposal pid).status = .Active)
    (hend : (s.voting.getProposal pid).votingPeriodEnd ≤ now) :
    ∃ s', s.endProposalAndExecute now pid = .ok s' ∧
      (s'.voting.getProposal pid).status
        = (if meetsApprovalCriteria (s.voting.getProposal pid).yesVotes
              (s.voting.getProposal pid).totalVoters s.voting.minVotesForApproval
              s.voting.approvalMajorityPercentage
           then ProposalStatus.Approved else ProposalStatus.Rejected) ∧
      ((s'.voting.getProposal pid).status = .Approved ↔
        (s.voting.minVotesForApproval ≤ (s.voting.getProposal pid).yesVotes ∧
         0 < (s.voting.getProposal pid).totalVoters ∧
         s.voting.approvalMajorityPercentage ≤
           (s.voting.getProposal pid).yesVotes * 100
             / (s.voting.getProposal pid).totalVoters)) ∧
      ((s'.voting.getProposal pid).status = .Approved ∨
       (s'.voting.getProposal pid).status = .Rejected) ∧
      ((s.voting.getProposal pid).totalVoters = 0 →
       (s'.voting.getProposal pid).status = .Rejected) := by
  refine ⟨{ s with voting := ProposalVoting.resolveCommit s.voting pid },
    SystemState.resolve_succeeds hex hact hend, ?_, ?_, ?_, ?_⟩
  · show ((ProposalVoting.resolveCommit s.voting pid).getProposal pid).status = _
    rw [VotingState.getProposal_resolveCommit_self]
    rfl
  · show ((ProposalVoting.resolveCommit s.voting pid).getProposal pid).status = _ ↔ _
    rw [VotingState.getProposal_resolveCommit_self]
    exact resolvedStatus_approved_iff s.voting pid
  · show ((ProposalVoting.resolveCommit s.voting pid).getProposal pid).status = _ ∨
        ((ProposalVoting.resolveCommit s.voting pid).getProposal pid).status = _
    rw [VotingState.getProposal_resolveCommit_self]
    unfold ProposalVoting.resolvedStatus
    split_ifs
    · exact Or.inl rfl
    · exact Or.inr rfl
  · intro htv
    show ((ProposalVoting.resolveCommit s.voting pid).getProposal pid).status = _
    rw [VotingState.getProposal_resolveCommit_self]
    unfold ProposalVoting.resolvedStatus
    rw [if_neg]
    intro hm
    exact absurd ((meetsApprovalCriteria_iff _ _ _ _).mp hm).2.1 (by omega)

/-- Witness for C1 at the concrete post-vote sample state: the hypotheses hold
and the resolution at time 5000 approves proposal 1 (1 yes of 1 voter). -/
theorem C1_witness :
    ∃ s', sampleS2.endProposalAndExecute 5000 1 = .ok s' ∧
      (s'.voting.getProposal 1).status
        = (if meetsApprovalCriteria (sampleS2.voting.getProposal 1).yesVotes
              (sampleS2.voting.getProposal 1).totalVoters
              sampleS2.voting.minVotesForApproval
              sampleS2.voting.approvalMajorityPercentage
           then ProposalStatus.Approved else ProposalStatus.Rejected) ∧
      ((s'.voting.getProposal 1).status = .Approved ↔
        (sampleS2.voting.minVotesForApproval ≤ (sampleS2.voting.getProposal 1).yesVotes ∧
         0 < (sampleS2.voting.getProposal 1).totalVoters ∧
         sampleS2.voting.approvalMajorityPercentage ≤
           (sampleS2.voting.getProposal 1).yesVotes * 100
             / (sampleS2.voting.getProposal 1).totalVoters)) ∧
      ((s'.voting.getProposal 1).status = .Approved ∨
       (s'.voting.getProposal 1).status = .Rejected) ∧
      ((sampleS2.voting.getProposal 1).totalVoters = 0 →
       (s'.voting.getProposal 1).status = .Rejected) :=
  C1_resolution_decision sampleS2 5000 1 (by decide) (by decide) (by decide)

/-- C2: the proposal lifecycle under the four operations: creation stores an
Active proposal (and changes no other proposal's status); `vote` never changes
any status; `endProposalAndExecute` moves the target from Active to Approved
or Rejected only; `executeApprovedProposal` moves the target from Approved to
Executed only; and Rejected/Executed are terminal: resolution and execution
both fail on them, leaving the state unchanged. -/
theorem C2_proposal_lifecycle :
    (∀ s : SystemState, ∀ sender now ptype url addrValue description
        durationSeconds pid s',
      s.createProposal sender now ptype url addrValue description durationSeconds
          = .ok (pid, s') →
      (s'.voting.getProposal pid).status = ProposalStatus.Active ∧
      ∀ q, q ≠ pid →
        (s'.voting.getProposal q).status = (s.voting.getProposal q).status) ∧
    (∀ s : SystemState, ∀ sender now pid support s',
      s.vote sender now pid support = .ok s' →
      ∀ q, (s'.voting.getProposal q).status = (s.voting.getProposal q).status) ∧
    (∀ s : SystemState, ∀ now pid s',
      s.endProposalAndExecute now pid = .ok s' →
      (s.voting.getProposal pid).status = ProposalStatus.Active ∧
      ((s'.voting.getProposal pid).status = ProposalStatus.Approved ∨
       (s'.voting.getProposal pid).status = ProposalStatus.Rejected) ∧
      ∀ q, q ≠ pid →
        (s'.voting.getProposal q).status = (s.voting.getProposal q).status) ∧
    (∀ s : SystemState, ∀ sender now pid s',
      s.executeApprovedProposal sender now pid = .ok s' →
      (s.voting.getProposal pid).status = ProposalStatus.Approved ∧
      (s'.voting.getProposal pid).status = ProposalStatus.Executed ∧
      ∀ q, q ≠ pid →
        (s'.voting.getProposal q).status = (s.voting.getProposal q).status) ∧
    (∀ s : SystemState, ∀ now pid,
      ((s.voting.getProposal pid).status = ProposalStatus.Rejected ∨
       (s.voting.getProposal pid).status = ProposalStatus.Executed) →
      (∃ e, s.endProposalAndExecute now pid = .error e) ∧
      txStep (s.endProposalAndExecute now pid) s = s ∧
      ∀ sender, (∃ e2, s.executeApprovedProposal sender now pid = .error e2) ∧
        txStep (s.executeApprovedProposal sender now pid) s = s) := by
  refine ⟨?_, ?_, ?_, ?_, ?_⟩
  · intro s sender now ptype url addrValue description durationSeconds pid s' h
    obtain ⟨hpid, _, _, hcommit⟩ := SystemState.createProposal_ok h
    subst hcommit
    subst hpid
    constructor
    · rw [VotingState.getProposal_upsertA_self s.voting s.voting.nextProposalId _ _ rfl]
      rfl
    · intro q hq
      rw [VotingState.getProposal_upsertA_ne s.voting s.voting.nextProposalId _ _ rfl hq]
  · intro s sender now pid support s' h
    obtain ⟨_, hs'⟩ := SystemState.vote_system_ok h
    subst hs'
    intro q
    by_cases hq : q = pid
    · subst hq
      rw [VotingState.getProposal_upsertA_self s.voting q _ _ rfl]
      rfl
    · rw [VotingState.getProposal_upsertA_ne s.voting pid _ _ rfl hq]
  · intro s now pid s' h
    obtain ⟨hv, hs'⟩ := SystemState.resolve_system_ok h
    obtain ⟨_, hact, _, _⟩ := ProposalVoting.resolve_ok hv
    subst hs'
    refine ⟨hact, ?_, ?_⟩
    · show ((ProposalVoting.resolveCommit s.voting pid).getProposal pid).status = _ ∨
          ((ProposalVoting.resolveCommit s.voting pid).getProposal pid).status = _
      rw [VotingState.getProposal_resolveCommit_self]
      unfold ProposalVoting.resolvedStatus
      split_ifs
      · exact Or.inl rfl
      · exact Or.inr rfl
    · intro q hq
      rw [VotingState.getProposal_upsertA_ne s.voting pid _ _ rfl hq]
  · intro s sender now pid s' h
    obtain ⟨_, _, happ, r, _, hs'⟩ := SystemState.executeApprovedProposal_ok h
    subst hs'
    refine ⟨happ, ?_, ?_⟩
    · rw [VotingState.getProposal_upsertA_self s.voting pid _ _ rfl]
    · intro q hq
      rw [VotingState.getProposal_upsertA_ne s.voting pid _ _ rfl hq]
  · intro s now pid hstat
    have hne : (s.voting.getProposal pid).status ≠ ProposalStatus.Active := by
      rcases hstat with h | h <;> rw [h] <;> intro hc <;> cases hc
    have hne2 : (s.voting.getProposal pid).status ≠ ProposalStatus.Approved := by
      rcases hstat with h | h <;> rw [h] <;> intro hc <;> cases hc
    have hresV : ∃ e, ProposalVoting.endProposalAndExecute s.voting now pid
        = .error e := by
      unfold ProposalVoting.endProposalAndExecute
      split_ifs with h1 <;> exact ⟨_, rfl⟩
    have hres : ∃ e, s.endProposalAndExecute now pid = .error e := by
      obtain ⟨e, he⟩ := hresV
      refine ⟨e, ?_⟩
      unfold SystemState.endProposalAndExecute
      rw [he]
      rfl
    have hexec : ∀ sender, ∃ e2,
        s.executeApprovedProposal sender now pid = .error e2 := by
      intro sender
      unfold SystemState.executeApprovedProposal
      split_ifs with h1 h2 <;> exact ⟨_, rfl⟩
    obtain ⟨e, he⟩ := hres
    refine ⟨⟨e, he⟩, txStep_error he, fun sender => ?_⟩
    obtain ⟨e2, he2⟩ := hexec sender
    exact ⟨⟨e2, he2⟩, txStep_error he2⟩

/-- Witness for C2: in the sample lifecycle, creation yields an Active
proposal, execution yields Executed, and on the Executed proposal both a
second resolution and a second execution fail without changing the state. -/
theorem C2_witness :
    (sampleS1.voting.getProposal 1).status = ProposalStatus.Active ∧
    (sampleS4.voting.getProposal 1).status = ProposalStatus.Executed ∧
    txStep (sampleS4.endProposalAndExecute 7000 1) sampleS4 = sampleS4 ∧
    txStep (sampleS4.executeApprovedProposal 7 7000 1) sampleS4 = sampleS4 :=
  ⟨(C2_proposal_lifecycle.1 sampleS0 5 1000 ProposalType.AddURL ("evil.example") 0
      ("phishing site") 60 1 sampleS1 (by decide)).1,
   (C2_proposal_lifecycle.2.2.2.1 sampleS3 7 6000 1 sampleS4 (by decide)).2.1,
   (C2_proposal_lifecycle.2.2.2.2 sampleS4 7000 1 (Or.inr (by decide))).2.1,
   ((C2_proposal_lifecycle.2.2.2.2 sampleS4 7000 1 (Or.inr (by decide))).2.2 7).2⟩

/-- C3: `executeApprovedProposal` error handling: a non-owner caller gets an
authorization error and no state change; if the proposal is Approved but the
dispatched `BlacklistRegistry` operation fails (for example re-adding an
already blacklisted value), the call fails, the transaction leaves the state
unchanged, and the proposal remains Approved — it is never silently marked
Executed. -/
theorem C3_execute_failure_safety :
    (∀ s : SystemState, ∀ sender now pid, sender ≠ s.voting.owner →
      s.executeApprovedProposal sender now pid = .error .onlyOwner ∧
      txStep (s.executeApprovedProposal sender now pid) s = s) ∧
    (∀ s : SystemState, ∀ sender now pid e,
      (s.voting.getProposal pid).status = ProposalStatus.Approved →
      s.execRegistryAction now (s.voting.getProposal pid) = .error e →
      (∃ e2, s.executeApprovedProposal sender now pid = .error e2) ∧
      txStep (s.executeApprovedProposal sender now pid) s = s ∧
      ((txStep (s.executeApprovedProposal sender now pid) s).voting.getProposal
          pid).status = ProposalStatus.Approved) := by
  constructor
  · intro s sender now pid hsender
    have he : s.executeApprovedProposal sender now pid = .error .onlyOwner := by
      unfold SystemState.executeApprovedProposal
      rw [if_pos hsender]
    exact ⟨he, txStep_error he⟩
  · intro s sender now pid e hstat hreg
    have herr : ∃ e2, s.executeApprovedProposal sender now pid = .error e2 := by
      by_cases h1 : sender ≠ s.voting.owner
      · refine ⟨.onlyOwner, ?_⟩
        unfold SystemState.executeApprovedProposal
        rw [if_pos h1]
      · by_cases h2 : ¬ (0 < pid ∧ pid < s.voting.nextProposalId)
        · refine ⟨.proposalDoesNotExist, ?_⟩
          unfold SystemState.executeApprovedProposal
          rw [if_neg h1, if_pos h2]
        · refine ⟨.registryFailure e, ?_⟩
          unfold SystemState.executeApprovedProposal
          rw [if_neg h1, if_neg h2, if_neg (not_not.mpr hstat), hreg]
    obtain ⟨e2, he2⟩ := herr
    refine ⟨⟨e2, he2⟩, txStep_error he2, ?_⟩
    rw [txStep_error he2]
    exact hstat

/-- Witness for C3: at the approved sample state, a non-owner call (address 8)
fails with the authorization error and changes nothing; at the variant state
whose registry already blacklists the URL, the owner's execution call fails and
proposal 1 stays Approved. -/
theorem C3_witness :
    (sampleS3.executeApprovedProposal 8 6000 1 = .error .onlyOwner ∧
     txStep (sampleS3.executeApprovedProposal 8 6000 1) sampleS3 = sampleS3) ∧
    ((∃ e2, sampleS3clash.executeApprovedProposal 7 6000 1 = .error e2) ∧
     txStep (sampleS3clash.executeApprovedProposal 7 6000 1) sampleS3clash
       = sampleS3clash ∧
     ((txStep (sampleS3clash.executeApprovedProposal 7 6000 1)
         sampleS3clash).voting.getProposal 1).status = ProposalStatus.Approved) :=
  ⟨C3_execute_failure_safety.1 sampleS3 8 6000 1 (by decide),
   C3_execute_failure_safety.2 sampleS3clash 7 6000 1
     RegistryError.urlAlreadyBlacklisted (by decide) (by decide)⟩

theorem actualVotingDuration_eq_max (s : SystemState) (d : Nat) :
    s.actualVotingDuration d = max d s.voting.minVotingPeriod := by
  unfold SystemState.actualVotingDuration
  split_ifs with h <;> omega

/-- C4: every successfully created proposal has
`votingPeriodEnd = creationTimestamp + max(requestedDuration, minVotingPeriod)`:
the requested duration is clamped up to the configured minimum and never
shortened. -/
theorem C4_voting_period_clamp (s s' : SystemState) (sender : Address) (now : Nat)
    (ptype : ProposalType) (url : String) (addrValue : Address)
    (description : String) (durationSeconds pid : Nat)
    (h : s.createProposal sender now ptype url addrValue description
          durationSeconds = .ok (pid, s')) :
    (s'.voting.getProposal pid).creationTimestamp = now ∧
    (s'.voting.getProposal pid).votingPeriodEnd
      = (s'.voting.getProposal pid).creationTimestamp
          + max durationSeconds s.voting.minVotingPeriod := by
  obtain ⟨hpid, _, _, hcommit⟩ := SystemState.createProposal_ok h
  subst hcommit
  subst hpid
  rw [VotingState.getProposal_upsertA_self s.voting s.voting.nextProposalId _ _ rfl]
  refine ⟨rfl, ?_⟩
  simp [ProposalVoting.newProposal, actualVotingDuration_eq_max]

/-- Witness for C4: the sample creation requested 60 seconds against a
configured minimum of 3600, and the stored end is creation + 3600. -/
theorem C4_witness :
    (sampleS1.voting.getProposal 1).creationTimestamp = 1000 ∧
    (sampleS1.voting.getProposal 1).votingPeriodEnd
      = (sampleS1.voting.getProposal 1).creationTimestamp
          + max 60 sampleS0.voting.minVotingPeriod :=
  have h := C4_voting_period_clamp sampleS0 sampleS1 5 1000 ProposalType.AddURL
    ("evil.example") 0 ("phishing site") 60 1 (by decide)
  ⟨by rw [h.1], h.2⟩

theorem ProposalVoting.vote_mem_error (v : VotingState) (sender : Address)
    (now pid : Nat) (support : Bool)
    (hmem : sender ∈ (v.getProposal pid).hasVoted) :
    ∃ e, ProposalVoting.vote v sender now pid support = .error e := by
  unfold ProposalVoting.vote
  split_ifs with h1 h2 h3 <;> exact ⟨_, rfl⟩

/-- C5: for every proposal and voter, at most one vote is ever recorded: a
first successful `vote` marks the voter, bumps `totalVoters` and exactly the
chosen tally, and any later `vote` by the same voter on the same proposal
fails; a `vote` by a voter already recorded fails and leaves the state
unchanged. -/
theorem C5_one_vote_per_pair :
    (∀ v : VotingState, ∀ sender now pid support v',
      ProposalVoting.vote v sender now pid support = .ok v' →
      sender ∉ (v.getProposal pid).hasVoted ∧
      sender ∈ (v'.getProposal pid).hasVoted ∧
      (v'.getProposal pid).totalVoters = (v.getProposal pid).totalVoters + 1 ∧
      (support = true →
        (v'.getProposal pid).yesVotes = (v.getProposal pid).yesVotes + 1 ∧
        (v'.getProposal pid).noVotes = (v.getProposal pid).noVotes) ∧
      (support = false →
        (v'.getProposal pid).yesVotes = (v.getProposal pid).yesVotes ∧
        (v'.getProposal pid).noVotes = (v.getProposal pid).noVotes + 1) ∧
      (∀ now2 support2, ∃ e,
        ProposalVoting.vote v' sender now2 pid support2 = .error e)) ∧
    (∀ v : VotingState, ∀ sender now pid support,
      sender ∈ (v.getProposal pid).hasVoted →
      (∃ e, ProposalVoting.vote v sender now pid support = .error e) ∧
      txStep (ProposalVoting.vote v sender now pid support) v = v) := by
  constructor
  · intro v sender now pid support v' h
    obtain ⟨_, _, _, hmem, hcommit⟩ := ProposalVoting.vote_ok h
    subst hcommit
    rw [VotingState.getProposal_upsertA_self v pid _
      (ProposalVoting.voteCommit v sender pid support) rfl]
    refine ⟨hmem, List.mem_cons_self sender _, rfl, ?_, ?_, ?_⟩
    · intro hs
      subst hs
      exact ⟨rfl, rfl⟩
    · intro hs
      subst hs
      exact ⟨rfl, rfl⟩
    · intro now2 support2
      apply ProposalVoting.vote_mem_error
      rw [VotingState.getProposal_upsertA_self v pid _
        (ProposalVoting.voteCommit v sender pid support) rfl]
      exact List.mem_cons_self sender _
  · intro v sender now pid support hmem
    obtain ⟨e, he⟩ := ProposalVoting.vote_mem_error v sender now pid support hmem
    exact ⟨⟨e, he⟩, txStep_error he⟩

/-- Witness for C5: in the sample run, voter 11 was not recorded before the
vote, is recorded after it, the tallies moved from 0 to 1, and a second vote
by 11 on proposal 1 fails without changing the state. -/
theorem C5_witness :
    (11 ∉ (sampleS1.voting.getProposal 1).hasVoted ∧
     11 ∈ (sampleS2.voting.getProposal 1).hasVoted ∧
     (sampleS2.voting.getProposal 1).totalVoters
       = (sampleS1.voting.getProposal 1).totalVoters + 1) ∧
    ((∃ e, ProposalVoting.vote sampleS2.voting 11 3000 1 false = .error e) ∧
     txStep (ProposalVoting.vote sampleS2.voting 11 3000 1 false) sampleS2.voting
       = sampleS2.voting) :=
  have h1 := C5_one_vote_per_pair.1 sampleS1.voting 11 2000 1 true
    sampleS2.voting (by decide)
  ⟨⟨h1.1, h1.2.1, h1.2.2.1⟩,
   C5_one_vote_per_pair.2 sampleS2.voting 11 3000 1 false (by decide)⟩

/-- C6: proposal IDs are sequential from 1: the constructor starts
`nextProposalId` at 1 with no stored proposals, every successful creation
returns the current `nextProposalId` and bumps it by one (and
`getTotalProposalCount` then equals the new ID), a failed creation leaves the
state — hence the ID counter — unchanged, and in every reachable state the
stored IDs are exactly `1 .. getTotalProposalCount` with
`getTotalProposalCount = nextProposalId - 1`. -/
theorem C6_sequential_ids :
    (∀ a b mv mn pc mh : Nat, ∀ dep : Address, ∀ v : VotingState,
      mkProposalVoting a b mv mn pc mh dep = .ok v →
      v.nextProposalId = 1 ∧ v.proposals = []) ∧
    (∀ s : SystemState, ∀ sender now ptype url addrValue description
        durationSeconds pid s',
      s.createProposal sender now ptype url addrValue description durationSeconds
          = .ok (pid, s') →
      pid = s.voting.nextProposalId ∧
      s'.voting.nextProposalId = pid + 1 ∧
      s'.voting.getTotalProposalCount = pid) ∧
    (∀ s : SystemState, ∀ sender now ptype url addrValue description
        durationSeconds e,
      s.createProposal sender now ptype url addrValue description durationSeconds
          = .error e →
      txStep ((s.createProposal sender now ptype url addrValue description
        durationSeconds).map Prod.snd) s = s) ∧
    (∀ s : SystemState, Reachable s →
      s.voting.getTotalProposalCount = s.voting.nextProposalId - 1 ∧
      ∀ pid, (lookupA pid s.voting.proposals).isSome = true ↔
        (0 < pid ∧ pid < s.voting.nextProposalId)) := by
  refine ⟨?_, ?_, ?_, ?_⟩
  · intro a b mv mn pc mh dep v h
    obtain ⟨h1, h2⟩ := mkProposalVoting_ok h
    exact ⟨h2, h1⟩
  · intro s sender now ptype url addrValue description durationSeconds pid s' h
    obtain ⟨hpid, _, _, hcommit⟩ := SystemState.createProposal_ok h
    subst hcommit
    subst hpid
    exact ⟨rfl, rfl, rfl⟩
  · intro s sender now ptype url addrValue description durationSeconds e h
    rw [h]
    rfl
  · intro s h
    exact ⟨rfl, (reachable_id_invariant h).2⟩

theorem sampleS0_initial : sampleS0.isInitial :=
  ⟨⟨1, 2, 3600, 1, 51, 10, 7, by decide⟩, ⟨99, 7, by decide⟩⟩

theorem sampleS0_reachable : Reachable sampleS0 :=
  Reachable.init sampleS0 sampleS0_initial

theorem sampleS1_reachable : Reachable sampleS1 :=
  Reachable.createStep sampleS0 5 1000 ProposalType.AddURL ("evil.example") 0
    ("phishing site") 60 1 sampleS1 sampleS0_reachable (by decide)

theorem sampleS2_reachable : Reachable sampleS2 :=
  Reachable.voteStep sampleS1 11 2000 1 true sampleS2 sampleS1_reachable (by decide)

/-- Witness for C6: the sample creation gets ID 1 from the fresh deployment,
the counter moves to 2, the total count is 1; a creation with an empty
description fails and leaves the state unchanged; in the reachable state
`sampleS1`, ID 1 is stored and the count is `nextProposalId - 1`. -/
theorem C6_witness :
    (1 = sampleS0.voting.nextProposalId ∧
     sampleS1.voting.nextProposalId = 1 + 1 ∧
     sampleS1.voting.getTotalProposalCount = 1) ∧
    txStep ((sampleS0.createProposal 5 1000 ProposalType.AddURL ("evil.example") 0
      ("") 60).map Prod.snd) sampleS0 = sampleS0 ∧
    (sampleS1.voting.getTotalProposalCount = sampleS1.voting.nextProposalId - 1 ∧
     ((lookupA 1 sampleS1.voting.proposals).isSome = true ↔
       (0 < 1 ∧ 1 < sampleS1.voting.nextProposalId))) :=
  ⟨C6_sequential_ids.2.1 sampleS0 5 1000 ProposalType.AddURL ("evil.example") 0
     ("phishing site") 60 1 sampleS1 (by decide),
   C6_sequential_ids.2.2.1 sampleS0 5 1000 ProposalType.AddURL ("evil.example") 0
     ("") 60 VotingError.emptyDescription (by decide),
   ⟨(C6_sequential_ids.2.2.2 sampleS1 sampleS1_reachable).1,
    (C6_sequential_ids.2.2.2 sampleS1 sampleS1_reachable).2 1⟩⟩

/-- C7: each EventIndexer handler is idempotent: applying it twice with the
same payload leaves the mirror database in the same state as applying it once
(upsert-by-key for `EntryAdded`, `ProposalCreated` and the `VoteCast` vote
record; update-by-key with an idempotent field assignment for `EntryRemoved`,
`ProposalStatusUpdated` and the `VoteCast` tally projection). -/
theorem C7_indexer_idempotent :
    (∀ db e, EventIndexer.onEntryAdded (EventIndexer.onEntryAdded db e) e
      = EventIndexer.onEntryAdded db e) ∧
    (∀ db e, EventIndexer.onEntryRemoved (EventIndexer.onEntryRemoved db e) e
      = EventIndexer.onEntryRemoved db e) ∧
    (∀ db e, EventIndexer.onProposalCreated (EventIndexer.onProposalCreated db e) e
      = EventIndexer.onProposalCreated db e) ∧
    (∀ db e, EventIndexer.onVoteCast (EventIndexer.onVoteCast db e) e
      = EventIndexer.onVoteCast db e) ∧
    (∀ db e, EventIndexer.onProposalStatusUpdated
        (EventIndexer.onProposalStatusUpdated db e) e
      = EventIndexer.onProposalStatusUpdated db e) := by
  refine ⟨?_, ?_, ?_, ?_, ?_⟩
  · intro db e
    simp [EventIndexer.onEntryAdded, upsertA_idem]
  · intro db e
    simp only [EventIndexer.onEntryRemoved]
    congr 1
    exact updateA_idem _ _ _ (fun b => rfl)
  · intro db e
    simp [EventIndexer.onProposalCreated, upsertA_idem]
  · intro db e
    simp only [EventIndexer.onVoteCast]
    rw [upsertA_idem]
    congr 1
    exact updateA_idem _ _ _ (fun p => rfl)
  · intro db e
    simp only [EventIndexer.onProposalStatusUpdated]
    congr 1
    exact updateA_idem _ _ _ (fun p => rfl)

/-- C8: `vote` is unweighted and independent of token balances: for two system
states that agree on everything except the token balance book, a `vote` call
produces the same outcome on the voting storage (and the same error, if any),
and a successful vote leaves balances and registry untouched while bumping the
chosen tally and `totalVoters` by exactly one. -/
theorem C8_vote_balance_independent :
    (∀ s1 s2 : SystemState, ∀ sender now pid support,
      s1.voting = s2.voting →
      (Except.map SystemState.voting (s1.vote sender now pid support)
        = Except.map SystemState.voting (s2.vote sender now pid support)) ∧
      (∀ e, s1.vote sender now pid support = .error e ↔
            s2.vote sender now pid support = .error e)) ∧
    (∀ s : SystemState, ∀ sender now pid support s',
      s.vote sender now pid support = .ok s' →
      s'.balances = s.balances ∧ s'.registry = s.registry ∧
      s'.votingContractAddr = s.votingContractAddr ∧
      (s'.voting.getProposal pid).totalVoters
        = (s.voting.getProposal pid).totalVoters + 1 ∧
      (support = true →
        (s'.voting.getProposal pid).yesVotes
          = (s.voting.getProposal pid).yesVotes + 1 ∧
        (s'.voting.getProposal pid).noVotes = (s.voting.getProposal pid).noVotes) ∧
      (support = false →
        (s'.voting.getProposal pid).yesVotes = (s.voting.getProposal pid).yesVotes ∧
        (s'.voting.getProposal pid).noVotes
          = (s.voting.getProposal pid).noVotes + 1)) := by
  constructor
  · intro s1 s2 sender now pid support hv
    unfold SystemState.vote
    rw [hv]
    cases ProposalVoting.vote s2.voting sender now pid support with
    | error e => exact ⟨rfl, fun e2 => Iff.rfl⟩
    | ok v => exact ⟨rfl, fun e2 => by simp [Except.map]⟩
  · intro s sender now pid support s' h
    obtain ⟨hv, hs'⟩ := SystemState.vote_system_ok h
    subst hs'
    refine ⟨rfl, rfl, rfl, ?_, ?_, ?_⟩
    · rw [VotingState.getProposal_upsertA_self s.voting pid _
        (ProposalVoting.voteCommit s.voting sender pid support) rfl]
      rfl
    · intro hs
      subst hs
      rw [VotingState.getProposal_upsertA_self s.voting pid _
        (ProposalVoting.voteCommit s.voting sender pid true) rfl]
      exact ⟨rfl, rfl⟩
    · intro hs
      subst hs
      rw [VotingState.getProposal_upsertA_self s.voting pid _
        (ProposalVoting.voteCommit s.voting sender pid false) rfl]
      exact ⟨rfl, rfl⟩

/-- Witness for C8: `sampleS1` and `sampleS1rich` differ only in voter 11's
holdings, and the vote outcome on the voting storage coincides; the successful
sample vote bumped the tallies by exactly one and left balances unchanged. -/
theorem C8_witness :
    (Except.map SystemState.voting (sampleS1.vote 11 2000 1 true)
      = Except.map SystemState.voting (sampleS1rich.vote 11 2000 1 true)) ∧
    (sampleS2.balances = sampleS1.balances ∧
     (sampleS2.voting.getProposal 1).totalVoters
       = (sampleS1.voting.getProposal 1).totalVoters + 1) :=
  have h2 := C8_vote_balance_independent.2 sampleS1 11 2000 1 true sampleS2 (by decide)
  ⟨(C8_vote_balance_independent.1 sampleS1 sampleS1rich 11 2000 1 true (by decide)).1,
   h2.1, h2.2.2.2.1⟩

/-- C9: the batch existence checks are total functions of the input list: they
return one boolean per input, in input order, each resolved independently by
the corresponding single-key lookup, and an absent key simply yields `false`. -/
theorem C9_batch_check (r : RegistryState) (urls : List String)
    (addrs : List Address) :
    (r.batchCheckURLs urls).length = urls.length ∧
    (r.batchCheckAddresses addrs).length = addrs.length ∧
    (∀ i : Fin urls.length,
      (r.batchCheckURLs urls).get
          (Fin.cast (by simp [RegistryState.batchCheckURLs]) i)
        = r.isURLBlacklisted (urls.get i)) ∧
    (∀ i : Fin addrs.length,
      (r.batchCheckAddresses addrs).get
          (Fin.cast (by simp [RegistryState.batchCheckAddresses]) i)
        = r.isAddressBlacklisted (addrs.get i)) ∧
    (∀ i : Fin urls.length, lookupA (urls.get i) r.blacklistedURLs = none →
      (r.batchCheckURLs urls).get
          (Fin.cast (by simp [RegistryState.batchCheckURLs]) i) = false) := by
  refine ⟨by simp [RegistryState.batchCheckURLs],
          by simp [RegistryState.batchCheckAddresses], ?_, ?_, ?_⟩
  · intro i
    simp [RegistryState.batchCheckURLs, List.get_eq_getElem, List.getElem_map]
  · intro i
    simp [RegistryState.batchCheckAddresses, List.get_eq_getElem, List.getElem_map]
  · intro i hnone
    simp only [List.get_eq_getElem] at hnone
    simp [RegistryState.batchCheckURLs, List.get_eq_getElem, List.getElem_map,
      RegistryState.isURLBlacklisted, hnone]

/-- Witness for C9 at a concrete registry (one blacklisted URL) and concrete
input lists, exercising the absent-key conjunct at index 1. -/
theorem C9_witness :
    (sampleS4.registry.batchCheckURLs [("evil.example"), ("good.example")]).length
      = 2 ∧
    (sampleS4.registry.batchCheckURLs [("evil.example"), ("good.example")]).get
        (Fin.cast (by simp [RegistryState.batchCheckURLs]) (1 : Fin 2)) = false :=
  have h := C9_batch_check sampleS4.registry [("evil.example"), ("good.example")] []
  ⟨h.1, h.2.2.2.2 (1 : Fin 2) (by decide)⟩

/-- C10: in every state reachable under the four lifecycle operations, every
stored proposal satisfies `totalVoters = yesVotes + noVotes`; correspondingly,
the indexer's `VoteCast` handler reconstructs `totalVoters` in the mirror as
`yesVotes + noVotes` of the event payload. -/
theorem C10_total_voters_eq_sum :
    (∀ s : SystemState, Reachable s →
      ∀ pid p, lookupA pid s.voting.proposals = some p →
        p.totalVoters = p.yesVotes + p.noVotes) ∧
    (∀ db : MirrorDB, ∀ e : VoteCastEvent, ∀ p : MProposal,
      lookupA e.proposalId (EventIndexer.onVoteCast db e).proposals = some p →
      p.totalVoters = e.yesVotes + e.noVotes ∧
      p.yesVotes = e.yesVotes ∧ p.noVotes = e.noVotes ∧
      p.totalVoters = p.yesVotes + p.noVotes) := by
  constructor
  · intro s h
    exact reachable_tally_invariant h
  · intro db e p hp
    simp only [EventIndexer.onVoteCast] at hp
    rw [lookupA_updateA_self] at hp
    cases hl : lookupA e.proposalId db.proposals with
    | none =>
      rw [hl] at hp
      cases hp
    | some p0 =>
      rw [hl] at hp
      cases Option.some.inj hp
      exact ⟨rfl, rfl, rfl, rfl⟩

/-- Witness for C10: in the reachable sample state after one yes-vote, the
stored proposal satisfies the tally identity; the indexer handler applied to
an empty mirror primed with the proposal reconstructs `totalVoters = 1 + 0`. -/
theorem C10_witness :
    sampleProposalAfterVote.totalVoters
      = sampleProposalAfterVote.yesVotes + sampleProposalAfterVote.noVotes :=
  C10_total_voters_eq_sum.1 sampleS2 sampleS2_reachable 1 sampleProposalAfterVote
    (by decide)
